import Mathlib

/-!
Shallow embedding of the ClipForge recording UI (TypeScript sources under
ui/src) together with spec-modelled parts of the backend it drives
(RecordingStateMachine, ReplayRingBuffer, ReplayController), and proofs of
the claims about them. Definitions come first, theorems after.
-/

namespace ClipForge

/-! Recording status and state (ui/src/lib/tauri.ts, `RecordingState`).
The TypeScript interface declares
  status: "Idle" | "Starting" | "Recording" | "Stopping".
The four-way union type is embedded as an inductive with one constructor
per string literal. -/

inductive Status where
  | Idle : Status
  | Starting : Status
  | Recording : Status
  | Stopping : Status
deriving DecidableEq

/-- Embedding of the `RecordingState` interface of ui/src/lib/tauri.ts:
`status`, `elapsed_secs`, `file_path` (nullable). -/
structure RecordingState where
  status : Status
  elapsed_secs : Nat
  file_path : Option String
deriving DecidableEq

/-- The initial value handed to `createSignal<RecordingState>` in
`useRecording` (ui/src/stores/recording.ts): status Idle, elapsed 0, no
file path. -/
def initialRecordingState : RecordingState :=
  { status := Status.Idle, elapsed_secs := 0, file_path := none }

/-- Which backend command a UI handler ends up invoking. -/
inductive BackendCall where
  | callStop : BackendCall
  | callStart : BackendCall
  | noCall : BackendCall
deriving DecidableEq

/-- Embedding of `toggleRecord` (ui/src/stores/recording.ts): invokes
`stopRecording` if the current status is Recording, `startRecording` if it
is Idle, and nothing otherwise. Its observable effect is which backend
command it invokes, so it maps the current state to the invoked call. -/
def toggleRecord (st : RecordingState) : BackendCall :=
  if st.status = Status.Recording then BackendCall.callStop
  else if st.status = Status.Idle then BackendCall.callStart
  else BackendCall.noCall

/-- The replay flag of the `useRecording` store. -/
structure ReplayStore where
  replayActive : Bool
deriving DecidableEq

/-- Embedding of `toggleReplay` (ui/src/stores/recording.ts): awaits
`toggleReplayBuffer` and stores the boolean it resolved with via
`setReplayActive`. -/
def toggleReplay (backendNewActive : Bool) (st : ReplayStore) : ReplayStore :=
  { st with replayActive := backendNewActive }

/-! ReplayRingBuffer. The ring buffer lives in the Rust backend, which is
not part of this repository snapshot; only its TypeScript callers are. It
is modelled from the spec below (spec sections 3 and 4.5). -/

/-- Modelled from the spec: a ReplaySegment carries a sequence number, a
start offset, a duration, a storage location and a creation timestamp
(spec section 3); only the duration matters to the buffer arithmetic. -/
structure ReplaySegment where
  seq : Nat
  start_offset : Nat
  duration : Nat
  location : String
  created_at : Nat
deriving DecidableEq

/-- Total retained duration of a list of segments. -/
def durSum (segs : List ReplaySegment) : Nat :=
  (segs.map ReplaySegment.duration).sum

/-- Modelled from the spec: eviction removes segments from the front
(oldest first) while the total duration exceeds the capacity
(spec section 4.5, `evict_to_capacity`). The backend implementing it is
not under this repository snapshot. -/
def evict_to_capacity (cap : Nat) : List ReplaySegment → List ReplaySegment
  | [] => []
  | seg :: rest =>
    if cap < durSum (seg :: rest) then evict_to_capacity cap rest
    else seg :: rest

/-- Modelled from the spec: `append` adds a segment at the back, then
evicts from the front while total duration exceeds capacity
(spec section 4.5). -/
def appendSeg (cap : Nat) (buf : List ReplaySegment) (seg : ReplaySegment) :
    List ReplaySegment :=
  evict_to_capacity cap (buf ++ [seg])

/-- A whole sequence of appends, oldest first, starting from a buffer. -/
def appendAll (cap : Nat) (buf : List ReplaySegment)
    (segs : List ReplaySegment) : List ReplaySegment :=
  segs.foldl (appendSeg cap) buf

/-- Modelled from the spec: auxiliary for `snapshot_suffix`, walking the
reversed buffer (newest first) and keeping segments until the requested
duration is covered. -/
def snapshotAuxRev : Nat → List ReplaySegment → List ReplaySegment
  | _, [] => []
  | s, seg :: rest =>
    if s = 0 then []
    else if s ≤ seg.duration then [seg]
    else seg :: snapshotAuxRev (s - seg.duration) rest

/-- Modelled from the spec: `snapshot_suffix(seconds)` on the buffer held
oldest-first returns the minimal trailing ordered subsequence whose
cumulative duration is at least `seconds`, or the entire buffer if its
total duration is less than requested; an empty buffer yields an empty
sequence (spec section 4.5). The backend implementing it is not under this
repository snapshot. -/
def snapshot_suffix (buf : List ReplaySegment) (s : Nat) : List ReplaySegment :=
  (snapshotAuxRev s buf.reverse).reverse

/-! RecordingStateMachine and ReplayController. These also live in the
Rust backend, outside this repository snapshot; they are modelled from the
spec (sections 4.2 and 4.6) so the TypeScript wrappers can be checked
against them. -/

/-- Control-surface errors of the recording state machine (spec section 7). -/
inductive RecError where
  | Busy : RecError
  | AlreadyRecording : RecError
  | NotRecording : RecError
deriving DecidableEq

/-- Save-request errors of the replay controller (spec section 7). -/
inductive SaveError where
  | ReplayInactive : SaveError
  | EmptyBuffer : SaveError
deriving DecidableEq

/-- Modelled from the spec: the RecordingSession owned by the state
machine — status, elapsed counter, the output target chosen at start, and
the finalized path once set (spec section 3). -/
structure Session where
  status : Status
  elapsed_secs : Nat
  output_target : String
  file_path : Option String
deriving DecidableEq

/-- Modelled from the spec: `stop()` is valid only from Recording; it
finalizes the output file, transitions to Idle, and returns the finalized
file path. From Idle it fails NotRecording; from Starting or Stopping it
is control-surface misuse rejected as Busy (spec sections 4.2 and 7). -/
def stop (m : Session) : Except RecError (String × Session) :=
  match m.status with
  | Status.Recording =>
    Except.ok (m.output_target,
      { m with status := Status.Idle, file_path := some m.output_target })
  | Status.Idle => Except.error RecError.NotRecording
  | _ => Except.error RecError.Busy

/-- Modelled from the spec: `start()` is valid only from Idle and resolves
with no value (the Unit payload); from Recording it fails AlreadyRecording
and from Starting or Stopping it fails Busy (spec section 4.2). -/
def start (m : Session) : Except RecError (Unit × Session) :=
  match m.status with
  | Status.Idle =>
    Except.ok ((), { m with status := Status.Starting, elapsed_secs := 0 })
  | Status.Recording => Except.error RecError.AlreadyRecording
  | _ => Except.error RecError.Busy

/-- Modelled from the spec: the replay controller's state — the active
flag, the retained segments, and the path the next saved clip is written
to (spec section 4.6). -/
structure ReplayBuffer where
  active : Bool
  segments : List ReplaySegment
  clip_path : String
deriving DecidableEq

/-- A saved replay clip: its output path and the segments concatenated
into it. -/
structure ReplayClip where
  path : String
  segments : List ReplaySegment
deriving DecidableEq

/-- Modelled from the spec: `saveClip` fails ReplayInactive when replay
mode is off, EmptyBuffer when the buffer has zero retained duration, and
otherwise assembles the `snapshot_suffix` of the requested seconds into a
standalone file and returns it (spec section 4.6). -/
def saveClip (rb : ReplayBuffer) (seconds : Nat) : Except SaveError ReplayClip :=
  if rb.active = false then Except.error SaveError.ReplayInactive
  else if durSum rb.segments = 0 then Except.error SaveError.EmptyBuffer
  else Except.ok (ReplayClip.mk rb.clip_path (snapshot_suffix rb.segments seconds))

/-- Embedding of the TS wrapper `saveReplayClip` (ui/src/lib/tauri.ts),
declared `Promise<string>`: it resolves with the clip's path string. The
store's `saveReplay` (ui/src/stores/recording.ts) simply forwards to it. -/
def saveReplayClip (rb : ReplayBuffer) (seconds : Nat) : Except SaveError String :=
  (saveClip rb seconds).map ReplayClip.path

/-- The Save Last 30s control of ui/src/pages/Recorder.tsx is rendered
with `disabled=(not replayActive())`. -/
def saveButtonDisabled (replayActive : Bool) : Bool := !replayActive

/-- The Save Last 30s control of ui/src/pages/Recorder.tsx invokes
`saveReplay(30)` on click. -/
def saveButtonSeconds : Nat := 30

/-- Modelled from the spec: one second of the elapsed-time counter — it
increments exactly once per second while the session is in Recording and
is untouched otherwise (spec section 4.2). -/
def timerTick (m : Session) : Session :=
  if m.status = Status.Recording then
    { m with elapsed_secs := m.elapsed_secs + 1 }
  else m

/-- `n` consecutive one-second ticks. -/
def ticks : Nat → Session → Session
  | 0, m => m
  | n + 1, m => ticks n (timerTick m)

/-- The timer signal of `useRecording` starts at `createSignal(0)`
(ui/src/stores/recording.ts). -/
def timerSignalInit : Nat := 0

/-- The `onRecordingTimer` subscription of `useRecording` runs
`setTimer(secs)`: the signal is replaced by the notification payload. -/
def onRecordingTimerUpdate (secs : Nat) (_timer : Nat) : Nat := secs

/-- The timer signal after a sequence of recording-timer notifications,
oldest first. -/
def timerAfterEvents (events : List Nat) : Nat :=
  events.foldl (fun t p => onRecordingTimerUpdate p t) timerSignalInit

/-- Embedding of the local `pad` of `formatTime`
(ui/src/pages/Recorder.tsx): `n.toString().padStart(2, "0")`. -/
def pad (n : Nat) : String :=
  let s := toString n
  if s.length < 2 then String.mk (List.replicate (2 - s.length) '0') ++ s
  else s

/-- Embedding of `formatTime` (ui/src/pages/Recorder.tsx). -/
def formatTime (seconds : Nat) : String :=
  let h := seconds / 3600
  let m := (seconds % 3600) / 60
  let s := seconds % 60
  if h > 0 then pad h ++ ":" ++ pad m ++ ":" ++ pad s
  else pad m ++ ":" ++ pad s

/-- The hours field named by the claim: floor(n / 3600). -/
def hoursOf (n : Nat) : Nat := n / 3600

/-- The minutes field named by the claim: floor((n mod 3600) / 60). -/
def minutesOf (n : Nat) : Nat := n % 3600 / 60

/-- The seconds field named by the claim: n mod 60. -/
def secondsOf (n : Nat) : Nat := n % 60

/-- The rendering described by the claim's words: the three fields each
zero-padded to two digits, "HH:MM:SS" exactly when the hours field is
positive and "MM:SS" otherwise. -/
def formatTimeClaim (n : Nat) : String :=
  if 0 < hoursOf n then
    pad (hoursOf n) ++ ":" ++ pad (minutesOf n) ++ ":" ++ pad (secondsOf n)
  else pad (minutesOf n) ++ ":" ++ pad (secondsOf n)

/-- Embedding of the `Recording` interface of ui/src/lib/tauri.ts (a
library entry). -/
structure Recording where
  id : String
  title : String
  file_path : String
  file_size : Nat
  duration : Nat
  resolution : String
  fps : Nat
  codec : String
  container : String
  source_type : String
  game_name : Option String
  created_at : String
  thumbnail_path : Option String
deriving DecidableEq

/-- Embedding of `handleDelete` (ui/src/pages/Library.tsx): the displayed
list becomes `prev.filter(r => r.id !== id)`. -/
def handleDelete (id : String) (prev : List Recording) : List Recording :=
  prev.filter (fun r => r.id != id)

/-- A sample library entry used by the witness below. -/
def sampleRecA : Recording :=
  { id := "a", title := "clip one", file_path := "one.mkv", file_size := 10,
    duration := 30, resolution := "1080p", fps := 60, codec := "h264",
    container := "mkv", source_type := "screen", game_name := none,
    created_at := "2024-01-01", thumbnail_path := none }

/-- A second sample library entry used by the witness below. -/
def sampleRecB : Recording :=
  { id := "b", title := "clip two", file_path := "two.mkv", file_size := 20,
    duration := 60, resolution := "1080p", fps := 60, codec := "h264",
    container := "mkv", source_type := "screen", game_name := none,
    created_at := "2024-01-02", thumbnail_path := none }

/-! Helper lemmas. -/

theorem durSum_nil : durSum [] = 0 := rfl

theorem durSum_cons (seg : ReplaySegment) (rest : List ReplaySegment) :
    durSum (seg :: rest) = seg.duration + durSum rest := by
  simp [durSum]

theorem durSum_reverse (l : List ReplaySegment) : durSum l.reverse = durSum l := by
  simp [durSum, List.sum_reverse]

/-- After eviction the total duration is within capacity. -/
theorem durSum_evict_le (cap : Nat) (l : List ReplaySegment) :
    durSum (evict_to_capacity cap l) ≤ cap := by
  induction l with
  | nil => simp [evict_to_capacity, durSum_nil]
  | cons seg rest ih =>
    by_cases h : cap < durSum (seg :: rest)
    · simpa [evict_to_capacity, h] using ih
    · simpa [evict_to_capacity, h] using Nat.le_of_not_lt h

/-- A single append leaves the buffer within capacity. -/
theorem durSum_appendSeg_le (cap : Nat) (buf : List ReplaySegment)
    (seg : ReplaySegment) : durSum (appendSeg cap buf seg) ≤ cap :=
  durSum_evict_le cap (buf ++ [seg])

theorem snapshotAuxRev_isPre (s : Nat) (r : List ReplaySegment) :
    snapshotAuxRev s r <+: r := by
  induction r generalizing s with
  | nil => simp [snapshotAuxRev]
  | cons seg rest ih =>
    by_cases h0 : s = 0
    · simp [snapshotAuxRev, h0]
    · by_cases h1 : s ≤ seg.duration
      · simp only [snapshotAuxRev, if_neg h0, if_pos h1]
        exact ⟨rest, rfl⟩
      · simp only [snapshotAuxRev, if_neg h0, if_neg h1]
        obtain ⟨u, hu⟩ := ih (s - seg.duration)
        exact ⟨u, by simp [hu]⟩

theorem snapshotAuxRev_durSum (s : Nat) (r : List ReplaySegment) :
    min s (durSum r) ≤ durSum (snapshotAuxRev s r) := by
  induction r generalizing s with
  | nil => simp [snapshotAuxRev, durSum_nil]
  | cons seg rest ih =>
    by_cases h0 : s = 0
    · simp [snapshotAuxRev, h0]
    · by_cases h1 : s ≤ seg.duration
      · simp only [snapshotAuxRev, if_neg h0, if_pos h1]
        rw [durSum_cons, durSum_cons, durSum_nil]
        omega
      · simp only [snapshotAuxRev, if_neg h0, if_neg h1]
        rw [durSum_cons, durSum_cons]
        have := ih (s - seg.duration)
        omega

theorem snapshotAuxRev_minimal (r : List ReplaySegment) :
    ∀ (s : Nat) (t : List ReplaySegment),
      (∀ x ∈ r, 0 < x.duration) → t <+: r → min s (durSum r) ≤ durSum t →
      (snapshotAuxRev s r).length ≤ t.length := by
  induction r with
  | nil =>
    intro s t _ _ _
    simp [snapshotAuxRev]
  | cons seg rest ih =>
    intro s t hpos ht hd
    by_cases h0 : s = 0
    · simp [snapshotAuxRev, h0]
    · have hdpos : 0 < seg.duration := hpos seg (by simp)
      by_cases h1 : s ≤ seg.duration
      · simp only [snapshotAuxRev, if_neg h0, if_pos h1, List.length_cons,
          List.length_nil]
        cases t with
        | nil =>
          exfalso
          rw [durSum_cons] at hd
          rw [durSum_nil] at hd
          omega
        | cons a t' => simp
      · cases t with
        | nil =>
          exfalso
          rw [durSum_cons] at hd
          rw [durSum_nil] at hd
          omega
        | cons a t' =>
          obtain ⟨u, hu⟩ := ht
          have ha : a = seg := by
            have := congrArg (fun l => l.head?) hu
            simpa using this
          have ht' : t' <+: rest := by
            refine ⟨u, ?_⟩
            have := congrArg (fun l => l.tail) hu
            simpa using this
          simp only [snapshotAuxRev, if_neg h0, if_neg h1, List.length_cons]
          have hd' : min (s - seg.duration) (durSum rest) ≤ durSum t' := by
            rw [durSum_cons] at hd
            rw [ha, durSum_cons] at hd
            omega
          have hpos' : ∀ x ∈ rest, 0 < x.duration := by
            intro x hx
            exact hpos x (by simp [hx])
          have := ih (s - seg.duration) t' hpos' ht' hd'
          omega

theorem snapshotAuxRev_of_lt (r : List ReplaySegment) :
    ∀ s : Nat, durSum r < s → snapshotAuxRev s r = r := by
  induction r with
  | nil => intro s _; simp [snapshotAuxRev]
  | cons seg rest ih =>
    intro s hs
    rw [durSum_cons] at hs
    have h0 : ¬ s = 0 := by omega
    have h1 : ¬ s ≤ seg.duration := by omega
    simp only [snapshotAuxRev, if_neg h0, if_neg h1]
    rw [ih (s - seg.duration) (by omega)]

/-- While in Recording, `n` ticks raise the elapsed counter by exactly
`n` and leave the status in Recording. -/
theorem ticks_elapsed (n : Nat) : ∀ m : Session,
    m.status = Status.Recording →
    (ticks n m).elapsed_secs = m.elapsed_secs + n ∧
    (ticks n m).status = Status.Recording := by
  induction n with
  | zero =>
    intro m hm
    exact ⟨rfl, hm⟩
  | succ n ih =>
    intro m hm
    have h1 : timerTick m = { m with elapsed_secs := m.elapsed_secs + 1 } := by
      simp [timerTick, hm]
    have h2 := ih { m with elapsed_secs := m.elapsed_secs + 1 } hm
    constructor
    · show (ticks n (timerTick m)).elapsed_secs = _
      rw [h1, h2.1]
      show m.elapsed_secs + 1 + n = m.elapsed_secs + (n + 1)
      omega
    · show (ticks n (timerTick m)).status = _
      rw [h1]
      exact h2.2

/-! Claims. -/

/-- Claim C1: `toggleRecord` respects the state-machine validity rules: it
invokes `stopRecording` exactly when the status is Recording, invokes
`startRecording` exactly when the status is Idle, and invokes neither
backend operation when the status is Starting or Stopping. -/
theorem toggleRecord_respects_state_machine (st : RecordingState) :
    (toggleRecord st = BackendCall.callStop ↔ st.status = Status.Recording) ∧
    (toggleRecord st = BackendCall.callStart ↔ st.status = Status.Idle) ∧
    (st.status = Status.Starting ∨ st.status = Status.Stopping →
      toggleRecord st = BackendCall.noCall) := by
  obtain ⟨s, e, f⟩ := st
  cases s <;> simp [toggleRecord]

/-- Witness for C1: at concrete states, `toggleRecord` calls stop from
Recording, start from Idle, and nothing from Starting. -/
theorem toggleRecord_respects_state_machine_witness :
    toggleRecord { status := Status.Recording, elapsed_secs := 5, file_path := none }
      = BackendCall.callStop ∧
    toggleRecord { status := Status.Idle, elapsed_secs := 0, file_path := none }
      = BackendCall.callStart ∧
    toggleRecord { status := Status.Starting, elapsed_secs := 0, file_path := none }
      = BackendCall.noCall := by
  refine ⟨?_, ?_, ?_⟩
  · exact (toggleRecord_respects_state_machine
      { status := Status.Recording, elapsed_secs := 5, file_path := none }).1.mpr rfl
  · exact (toggleRecord_respects_state_machine
      { status := Status.Idle, elapsed_secs := 0, file_path := none }).2.1.mpr rfl
  · exact (toggleRecord_respects_state_machine
      { status := Status.Starting, elapsed_secs := 0, file_path := none }).2.2
      (Or.inl rfl)

/-- Claim C2: for all capacities C and segment durations bounded by L,
after any sequence of appends starting from the empty buffer the total
retained duration is at most C + L. (The model in fact keeps it at or
below C once a sequence of appends has run, since eviction removes oldest
segments until the total is within capacity.) -/
theorem ringBuffer_duration_bounded (C L : Nat) (segs : List ReplaySegment)
    (hL : ∀ s ∈ segs, s.duration ≤ L) :
    durSum (appendAll C [] segs) ≤ C + L := by
  cases segs with
  | nil => simp [appendAll, durSum_nil]
  | cons seg rest =>
    have key : ∀ (r : List ReplaySegment) (b : List ReplaySegment),
        durSum b ≤ C → durSum (appendAll C b r) ≤ C := by
      intro r
      induction r with
      | nil => intro b hb; simpa [appendAll] using hb
      | cons x xs ih =>
        intro b _
        have : durSum (appendSeg C b x) ≤ C := durSum_appendSeg_le C b x
        simpa [appendAll, List.foldl_cons] using ih (appendSeg C b x) this
    have h0 : durSum (appendSeg C [] seg) ≤ C := durSum_appendSeg_le C [] seg
    have := key rest (appendSeg C [] seg) h0
    calc durSum (appendAll C [] (seg :: rest))
        = durSum (appendAll C (appendSeg C [] seg) rest) := by
          simp [appendAll, List.foldl_cons]
      _ ≤ C := this
      _ ≤ C + L := Nat.le_add_right C L

/-- Witness for C2 at capacity 30 and segment duration 2, with twenty
appended 2-second segments (spec section 8, scenario A): the bound holds. -/
theorem ringBuffer_duration_bounded_witness :
    (∀ s ∈ (List.range 20).map
        (fun i => ReplaySegment.mk i (2 * i) 2 "shm" i), s.duration ≤ 2) ∧
    durSum (appendAll 30 []
        ((List.range 20).map
          (fun i => ReplaySegment.mk i (2 * i) 2 "shm" i))) ≤ 30 + 2 := by
  constructor
  · decide
  · exact ringBuffer_duration_bounded 30 2 _ (by decide)

/-- Claim C3: `snapshot_suffix s` returns the minimal trailing ordered
subsequence whose cumulative duration reaches min(s, total buffered
duration): it is a suffix of the buffer, its duration covers the capped
request, no shorter suffix does, a buffer holding less than requested is
returned whole rather than failing, and an empty buffer yields the empty
sequence. Stated for buffers of positive-duration segments. -/
theorem snapshot_suffix_minimal_adequate (buf : List ReplaySegment) (s : Nat)
    (hpos : ∀ x ∈ buf, 0 < x.duration) :
    snapshot_suffix buf s <:+ buf ∧
    min s (durSum buf) ≤ durSum (snapshot_suffix buf s) ∧
    (∀ t, t <:+ buf → min s (durSum buf) ≤ durSum t →
      (snapshot_suffix buf s).length ≤ t.length) ∧
    (durSum buf < s → snapshot_suffix buf s = buf) ∧
    snapshot_suffix [] s = [] := by
  refine ⟨?_, ?_, ?_, ?_, ?_⟩
  · have h := snapshotAuxRev_isPre s buf.reverse
    have := List.reverse_suffix.mpr h
    simpa [snapshot_suffix] using this
  · have h := snapshotAuxRev_durSum s buf.reverse
    rw [durSum_reverse] at h
    simpa [snapshot_suffix, durSum_reverse] using h
  · intro t htt hdt
    have htp : t.reverse <+: buf.reverse := List.reverse_prefix.mpr htt
    have hposr : ∀ x ∈ buf.reverse, 0 < x.duration := by
      intro x hx
      exact hpos x (List.mem_reverse.mp hx)
    have hdr : min s (durSum buf.reverse) ≤ durSum t.reverse := by
      rw [durSum_reverse, durSum_reverse]
      exact hdt
    have := snapshotAuxRev_minimal buf.reverse s t.reverse hposr htp hdr
    simpa [snapshot_suffix] using this
  · intro hlt
    have : snapshotAuxRev s buf.reverse = buf.reverse :=
      snapshotAuxRev_of_lt buf.reverse s (by rwa [durSum_reverse])
    simp [snapshot_suffix, this]
  · rfl

/-- Witness for C3: a buffer of three 2-second segments and a 3-second
request satisfy the positivity hypothesis and the stated properties. -/
theorem snapshot_suffix_minimal_adequate_witness :
    (∀ x ∈ [ReplaySegment.mk 0 0 2 "shm" 0, ReplaySegment.mk 1 2 2 "shm" 1,
        ReplaySegment.mk 2 4 2 "shm" 2], 0 < x.duration) ∧
    (snapshot_suffix [ReplaySegment.mk 0 0 2 "shm" 0,
        ReplaySegment.mk 1 2 2 "shm" 1, ReplaySegment.mk 2 4 2 "shm" 2] 3 <:+
      [ReplaySegment.mk 0 0 2 "shm" 0, ReplaySegment.mk 1 2 2 "shm" 1,
        ReplaySegment.mk 2 4 2 "shm" 2] ∧
     min 3 (durSum [ReplaySegment.mk 0 0 2 "shm" 0,
        ReplaySegment.mk 1 2 2 "shm" 1, ReplaySegment.mk 2 4 2 "shm" 2]) ≤
      durSum (snapshot_suffix [ReplaySegment.mk 0 0 2 "shm" 0,
        ReplaySegment.mk 1 2 2 "shm" 1, ReplaySegment.mk 2 4 2 "shm" 2] 3) ∧
     (∀ t, t <:+ [ReplaySegment.mk 0 0 2 "shm" 0,
        ReplaySegment.mk 1 2 2 "shm" 1, ReplaySegment.mk 2 4 2 "shm" 2] →
       min 3 (durSum [ReplaySegment.mk 0 0 2 "shm" 0,
        ReplaySegment.mk 1 2 2 "shm" 1, ReplaySegment.mk 2 4 2 "shm" 2]) ≤
        durSum t →
       (snapshot_suffix [ReplaySegment.mk 0 0 2 "shm" 0,
        ReplaySegment.mk 1 2 2 "shm" 1,
        ReplaySegment.mk 2 4 2 "shm" 2] 3).length ≤ t.length) ∧
     (durSum [ReplaySegment.mk 0 0 2 "shm" 0, ReplaySegment.mk 1 2 2 "shm" 1,
        ReplaySegment.mk 2 4 2 "shm" 2] < 3 →
       snapshot_suffix [ReplaySegment.mk 0 0 2 "shm" 0,
        ReplaySegment.mk 1 2 2 "shm" 1, ReplaySegment.mk 2 4 2 "shm" 2] 3 =
       [ReplaySegment.mk 0 0 2 "shm" 0, ReplaySegment.mk 1 2 2 "shm" 1,
        ReplaySegment.mk 2 4 2 "shm" 2]) ∧
     snapshot_suffix [] 3 = []) :=
  ⟨by decide, snapshot_suffix_minimal_adequate
    [ReplaySegment.mk 0 0 2 "shm" 0, ReplaySegment.mk 1 2 2 "shm" 1,
      ReplaySegment.mk 2 4 2 "shm" 2] 3 (by decide)⟩

/-- Claim C4: the recording status is always exactly one of Idle, Starting,
Recording, Stopping — the embedded status type has no other inhabitant —
and the store's initial state carries status Idle. -/
theorem status_is_one_of_four :
    (∀ s : Status, s = Status.Idle ∨ s = Status.Starting ∨
      s = Status.Recording ∨ s = Status.Stopping) ∧
    initialRecordingState.status = Status.Idle := by
  constructor
  · intro s
    cases s
    · exact Or.inl rfl
    · exact Or.inr (Or.inl rfl)
    · exact Or.inr (Or.inr (Or.inl rfl))
    · exact Or.inr (Or.inr (Or.inr rfl))
  · rfl

/-- Claim C5: `toggleReplay` stores exactly the boolean the backend
`toggleReplayBuffer` call resolved with, so the exposed flag reflects the
backend's reported post-toggle state, whatever the flag held before. -/
theorem toggleReplay_reflects_backend (b : Bool) (st : ReplayStore) :
    (toggleReplay b st).replayActive = b := rfl

/-- Claim C6: the Save Last 30s control is disabled whenever replayActive
is false; whenever it is enabled the replay mode is on, it requests
exactly 30 seconds, and the ReplayInactive error branch of the save
request is unreachable. -/
theorem save_control_no_replayInactive (rb : ReplayBuffer)
    (henabled : saveButtonDisabled rb.active = false) :
    rb.active = true ∧ saveButtonSeconds = 30 ∧
    ∀ s : Nat, saveClip rb s ≠ Except.error SaveError.ReplayInactive := by
  have hact : rb.active = true := by
    simpa [saveButtonDisabled] using henabled
  refine ⟨hact, rfl, ?_⟩
  intro s
  by_cases hd : durSum rb.segments = 0 <;> simp [saveClip, hact, hd]

/-- Witness for C6: a concrete active buffer enables the control and its
save request never fails with ReplayInactive. -/
theorem save_control_no_replayInactive_witness :
    saveButtonDisabled (ReplayBuffer.mk true [] "clip.mkv").active = false ∧
    ((ReplayBuffer.mk true [] "clip.mkv").active = true ∧
      saveButtonSeconds = 30 ∧
      ∀ s : Nat, saveClip (ReplayBuffer.mk true [] "clip.mkv") s ≠
        Except.error SaveError.ReplayInactive) :=
  ⟨rfl, save_control_no_replayInactive (ReplayBuffer.mk true [] "clip.mkv") rfl⟩

/-- Claim C7: a successful stop resolves with the finalized output file
path (a string), a successful start resolves with no value (the Unit
payload), and a successful saveReplayClip resolves with the clip's path
string. -/
theorem stop_start_save_payloads (m : Session) (rb : ReplayBuffer) (s : Nat)
    (hm : m.status = Status.Recording) (hrb : rb.active = true)
    (hne : durSum rb.segments ≠ 0) :
    stop m = Except.ok (m.output_target,
      { m with status := Status.Idle, file_path := some m.output_target }) ∧
    (∀ m0 : Session, m0.status = Status.Idle →
      start m0 = Except.ok ((),
        { m0 with status := Status.Starting, elapsed_secs := 0 })) ∧
    saveReplayClip rb s = Except.ok rb.clip_path := by
  refine ⟨?_, ?_, ?_⟩
  · obtain ⟨st, e, ot, fp⟩ := m
    dsimp only at hm
    subst hm
    rfl
  · intro m0 h0
    obtain ⟨st0, e0, ot0, fp0⟩ := m0
    dsimp only at h0
    subst h0
    rfl
  · obtain ⟨a, segs, cp⟩ := rb
    dsimp only at hrb hne
    subst hrb
    simp [saveReplayClip, saveClip, hne, Except.map]

/-- Witness for C7: a concrete Recording session stops to its target path
and a concrete active nonempty buffer saves to its clip path. -/
theorem stop_start_save_payloads_witness :
    stop (Session.mk Status.Recording 7 "rec.mkv" none) =
      Except.ok ("rec.mkv", Session.mk Status.Idle 7 "rec.mkv" (some "rec.mkv")) ∧
    saveReplayClip
      (ReplayBuffer.mk true [ReplaySegment.mk 0 0 2 "shm" 0] "clip.mkv") 30 =
      Except.ok "clip.mkv" := by
  have h := stop_start_save_payloads (Session.mk Status.Recording 7 "rec.mkv" none)
    (ReplayBuffer.mk true [ReplaySegment.mk 0 0 2 "shm" 0] "clip.mkv") 30
    rfl rfl (by decide)
  exact ⟨h.1, h.2.2⟩

/-- Claim C8: the exposed elapsed counter starts at 0, always equals the
payload of the most recent recording-timer notification, and the
counter's payloads read 0, 1, 2, ... — one increment per one-second tick —
while the session stays in Recording. -/
theorem elapsed_counter_one_hz :
    timerSignalInit = 0 ∧
    (∀ (es : List Nat) (k : Nat), timerAfterEvents (es ++ [k]) = k) ∧
    (∀ (m : Session) (n : Nat), m.status = Status.Recording →
      m.elapsed_secs = 0 → (ticks n m).elapsed_secs = n) := by
  refine ⟨rfl, ?_, ?_⟩
  · intro es k
    simp [timerAfterEvents, onRecordingTimerUpdate]
  · intro m n hm h0
    have := (ticks_elapsed n m hm).1
    omega

/-- Witness for C8: three notifications leave the signal at the last
payload, and three ticks of a fresh Recording session read 3. -/
theorem elapsed_counter_one_hz_witness :
    timerAfterEvents [0, 1, 2] = 2 ∧
    (ticks 3 (Session.mk Status.Recording 0 "rec.mkv" none)).elapsed_secs = 3 :=
  ⟨elapsed_counter_one_hz.2.1 [0, 1] 2,
   elapsed_counter_one_hz.2.2 (Session.mk Status.Recording 0 "rec.mkv" none)
     3 rfl rfl⟩

/-- Claim C9: `formatTime` renders exactly the fields h = floor(n/3600),
m = floor((n mod 3600)/60), s = n mod 60, zero-padded, as "HH:MM:SS" when
h is positive and "MM:SS" otherwise, and the fields recombine to n; the
minutes and seconds fields always fit two digits. -/
theorem formatTime_fields_recombine (n : Nat) :
    formatTime n = formatTimeClaim n ∧
    3600 * hoursOf n + 60 * minutesOf n + secondsOf n = n ∧
    minutesOf n < 60 ∧ secondsOf n < 60 := by
  refine ⟨rfl, ?_, ?_, ?_⟩ <;>
    simp only [hoursOf, minutesOf, secondsOf] <;> omega

/-- Claim C10: `handleDelete id` removes exactly the library entries whose
id equals the argument: the resulting list is an order-preserving sublist
of the previous one, contains no entry with the deleted id, retains every
entry with a different id, and keeps the multiplicity of every other
entry unchanged. -/
theorem handleDelete_removes_only_target (id : String) (l : List Recording) :
    (handleDelete id l).Sublist l ∧
    (∀ r ∈ handleDelete id l, r.id ≠ id) ∧
    (∀ r ∈ l, r.id ≠ id → r ∈ handleDelete id l) ∧
    (∀ r : Recording, r.id ≠ id → (handleDelete id l).count r = l.count r) := by
  refine ⟨List.filter_sublist l, ?_, ?_, ?_⟩
  · intro r hr
    have := (List.mem_filter.mp hr).2
    simpa using this
  · intro r hrl hne
    exact List.mem_filter.mpr ⟨hrl, by simpa using hne⟩
  · intro r hne
    exact List.count_filter (by simpa using hne)

/-- Witness for C10: deleting id "a" from a two-entry library keeps the
entry with id "b" at unchanged multiplicity. -/
theorem handleDelete_removes_only_target_witness :
    sampleRecB.id ≠ "a" ∧
    (handleDelete "a" [sampleRecA, sampleRecB]).count sampleRecB =
      [sampleRecA, sampleRecB].count sampleRecB :=
  ⟨by decide,
   (handleDelete_removes_only_target "a" [sampleRecA, sampleRecB]).2.2.2
     sampleRecB (by decide)⟩

end ClipForge
